import Mathlib

/-!
Verification of the autonote text-processing service.

Text is modelled as `List Char`; Python string primitives (strip, lower,
split variants, substring membership) are embedded as executable functions
on character lists.  Each claim about the service is stated and settled
against these embeddings, which are transcribed from the modules
`src/utils/summarizer.py`, `src/utils/chatbot.py`, `src/utils/cleanup.py`,
`src/config.py` and `src/app.py`.
-/

namespace AutoNote

/-- Python str.strip: drop leading and trailing whitespace characters. -/
def pyStrip (s : List Char) : List Char :=
  ((s.dropWhile Char.isWhitespace).reverse.dropWhile Char.isWhitespace).reverse

/-- Python str.lower, character by character. -/
def pyLower (s : List Char) : List Char :=
  s.map Char.toLower

/-- Python substring membership test: needle in hay. -/
def pyContains (needle hay : List Char) : Bool :=
  decide (needle <:+: hay)

/-- Python any(k in s for k in kws). -/
def containsAny (kws : List (List Char)) (s : List Char) : Bool :=
  kws.any (fun k => pyContains k s)

/-- Python sep.join on a separator given as a character list. -/
def joinSep (sep : List Char) : List (List Char) → List Char
  | [] => []
  | [w] => w
  | w :: ws => w ++ sep ++ joinSep sep ws

/-- Helper for Python str.split(sep) with a one-character separator:
splits at every occurrence of the separator, keeping empty pieces. -/
def splitCharAux (sep : Char) : List Char → List Char → List (List Char)
  | [], cur => [cur.reverse]
  | c :: rest, cur =>
    if c = sep then cur.reverse :: splitCharAux sep rest []
    else splitCharAux sep rest (c :: cur)

/-- Python str.split(sep) with a one-character separator. -/
def pySplitChar (sep : Char) (s : List Char) : List (List Char) :=
  splitCharAux sep s []

/-- Helper for Python str.split() with no argument: splits on runs of
whitespace and discards empty pieces. -/
def pySplitWsAux : List Char → List Char → List (List Char)
  | [], cur => if cur.isEmpty then [] else [cur.reverse]
  | c :: rest, cur =>
    if c.isWhitespace then
      if cur.isEmpty then pySplitWsAux rest []
      else cur.reverse :: pySplitWsAux rest []
    else pySplitWsAux rest (c :: cur)

/-- Python str.split() with no argument. -/
def pySplitWs (s : List Char) : List (List Char) :=
  pySplitWsAux s []

/-- Sentence-break characters of the regular expression [.!?]+ used in
simple_text_summarizer. -/
def isSentBreak (c : Char) : Bool :=
  c = '.' || c = '!' || c = '?'

/-- Helper for re.split with pattern [.!?]+: a run of break characters
counts as a single separator.  The flag records whether the walk is inside
a separator run whose piece has already been emitted. -/
def reSplitAux : List Char → List Char → Bool → List (List Char)
  | [], cur, _ => [cur.reverse]
  | c :: rest, cur, skipping =>
    if isSentBreak c then
      if skipping then reSplitAux rest cur true
      else cur.reverse :: reSplitAux rest [] true
    else reSplitAux rest (c :: cur) false

/-- re.split of the pattern [.!?]+ over the text, as in
simple_text_summarizer (summarizer.py line 25). -/
def reSplit (s : List Char) : List (List Char) :=
  reSplitAux s [] false

/-- Decimal rendering of a natural number, for the embedded f-strings. -/
def natToChars (n : Nat) : List Char :=
  (Nat.repr n).toList

end AutoNote

namespace AutoNote

/-! Embedding of src/utils/summarizer.py. -/

/-- Importance keywords of simple_text_summarizer (summarizer.py line 37). -/
def importanceKeywords : List (List Char) :=
  ["important".toList, "key".toList, "main".toList, "significant".toList,
   "crucial".toList, "essential".toList, "primary".toList]

/-- simple_text_summarizer (summarizer.py lines 23-51).  The selection loop
appends the first meaningful sentence, then keyword-bearing sentences until
the total reaches 5; if fewer than 3 were selected and more meaningful
sentences remain, up to 3 further ones are appended. -/
def simple_text_summarizer (text : List Char) : List Char :=
  let sentences := reSplit text
  let meaningful_sentences := (sentences.map pyStrip).filter (fun s => 20 < s.length)
  match meaningful_sentences with
  | [] =>
    joinSep ['\n'] []
  | first :: rest =>
    let kw := (rest.filter (fun s => containsAny importanceKeywords (pyLower s))).take 4
    let extra :=
      if kw.length + 1 < 3 && decide (kw.length + 1 < meaningful_sentences.length) then
        (meaningful_sentences.drop (kw.length + 1)).take 3
      else []
    joinSep ['\n'] ((first :: (kw ++ extra)).map (fun s => "• ".toList ++ pyStrip s ++ ['.']))

/-- Helper for chunk_text: the word loop of summarizer.py lines 60-70,
with the accumulated current chunk kept in reverse order. -/
def chunkTextAux (maxChunkSize : Nat) : List (List Char) → List (List Char) → Nat → List (List Char)
  | [], cur, _ =>
    if cur.isEmpty then [] else [joinSep [' '] cur.reverse]
  | w :: ws, cur, size =>
    let cur2 := w :: cur
    let size2 := size + w.length + 1
    if maxChunkSize ≤ size2 then joinSep [' '] cur2.reverse :: chunkTextAux maxChunkSize ws [] 0
    else chunkTextAux maxChunkSize ws cur2 size2

/-- chunk_text (summarizer.py lines 53-72). -/
def chunk_text (text : List Char) (maxChunkSize : Nat) : List (List Char) :=
  chunkTextAux maxChunkSize (pySplitWs text) [] 0

/-- A summarization backend call: chunk, max_length, min_length; an error
value stands for a raised exception. -/
def SummBackend : Type :=
  List Char → Nat → Nat → Except Unit (List Char)

/-- The try-block of generate_notes (summarizer.py lines 83-121): chunked
processing for texts over 1000 characters, direct processing otherwise.
An exception raised by any backend call propagates to the except-handler. -/
def tryGenerateNotes (backend : SummBackend) (text : List Char)
    (maxLength minLength : Nat) : Except Unit (List Char) :=
  if 1000 < text.length then do
    let chunks := chunk_text text 900
    let summaries ← chunks.foldlM (fun acc chunk =>
      if (pyStrip chunk).length < 50 then pure acc
      else do
        let wordCount := (pySplitWs chunk).length
        let s ← backend chunk (min maxLength (wordCount / 2)) (min minLength (wordCount / 4))
        pure (acc ++ [s])) []
    pure (joinSep ['\n'] (summaries.map (fun s => "• ".toList ++ s)))
  else do
    let s ← backend text maxLength minLength
    let sentences := ((pySplitChar '.' s).map pyStrip).filter (fun t => !t.isEmpty)
    pure (joinSep ['\n'] (sentences.map (fun t => "• ".toList ++ t ++ ['.'])))

/-- generate_notes (summarizer.py lines 74-125).  The module-level flags
use_fallback and summarizer are passed as parameters; the summarizer handle
is an optional backend.  All backend exceptions are caught inside, so the
result is a plain string. -/
def generate_notes (useFallback : Bool) (backend : Option SummBackend)
    (text : List Char) (maxLength minLength : Nat) : List Char :=
  if (pyStrip text).isEmpty then "No content provided for summarization.".toList
  else if useFallback || backend.isNone then simple_text_summarizer text
  else
    match backend with
    | none => simple_text_summarizer text
    | some f =>
      match tryGenerateNotes f text maxLength minLength with
      | Except.ok notes => notes
      | Except.error _ => simple_text_summarizer text

/-! Embedding of src/config.py and the upload validation of src/app.py. -/

/-- Config.UPLOAD_EXTENSIONS (config.py line 14). -/
def UPLOAD_EXTENSIONS : List (List Char) :=
  [".txt".toList, ".pdf".toList, ".docx".toList]

/-- Python str.lstrip applied with the dot character. -/
def lstripDot (s : List Char) : List Char :=
  s.dropWhile (fun c => c == '.')

/-- The part of the filename after its last dot, which is what
filename.rsplit with the dot and count 1 selects at index 1 when the
filename contains a dot. -/
def afterLastDot (s : List Char) : List Char :=
  (s.reverse.takeWhile (fun c => c != '.')).reverse

/-- allowed_file (app.py lines 43-45). -/
def allowed_file (filename : List Char) : Bool :=
  decide ('.' ∈ filename) &&
    decide (pyLower (afterLastDot filename) ∈ UPLOAD_EXTENSIONS.map lstripDot)

/-- Outcome of the upload-validation branch of the process handler. -/
inductive FileCheck where
  | skipped
  | accepted
  | rejectedFlashRedirect
deriving DecidableEq

/-- The file branch of process (app.py lines 100-128): a present file with
a non-empty name is accepted when allowed_file holds and otherwise answered
with a flash-error redirect; an absent file or empty name is skipped. -/
def processFileCheck (filePresent : Bool) (filename : List Char) : FileCheck :=
  if filePresent && !filename.isEmpty && allowed_file filename then FileCheck.accepted
  else if filePresent && !filename.isEmpty && !allowed_file filename then
    FileCheck.rejectedFlashRedirect
  else FileCheck.skipped

/-! Embedding of the note_style call site (app.py lines 135-138) against
the signature of utils.summarizer.generate_notes (summarizer.py line 74). -/

/-- The parameter names of utils.summarizer.generate_notes, read off its
def line (summarizer.py line 74). -/
def generate_notes_params : List (List Char) :=
  ["text".toList, "max_length".toList, "min_length".toList]

/-- Result of resolving the keyword arguments of a Python call. -/
inductive PyCallResult where
  | ok
  | typeErrorUnexpectedKwarg (kw : List Char)
deriving DecidableEq

/-- Python keyword-argument resolution: a keyword argument that is not
among the callee parameters makes the call raise TypeError. -/
def checkKwargsCall (params : List (List Char)) (kwargs : List (List Char)) : PyCallResult :=
  match kwargs.find? (fun kw => !params.contains kw) with
  | some kw => PyCallResult.typeErrorUnexpectedKwarg kw
  | none => PyCallResult.ok

/-- The note styles offered by the form and defaulted in app.py line 137. -/
def note_styles : List (List Char) :=
  ["structured".toList, "bullet".toList, "detailed".toList]

/-- Keyword-argument resolution of the call at app.py line 138, which
passes note_style to utils.summarizer.generate_notes. -/
def processGenerateNotesCall : PyCallResult :=
  checkKwargsCall generate_notes_params ["note_style".toList]

/-- Outcome of the notes-generation step of process. -/
inductive ProcessOutcome where
  | rendered
  | flashRedirect
deriving DecidableEq

/-- The try-except around notes generation (app.py lines 135-166): an
exception from the call becomes a flash-error redirect. -/
def processNotesStep (callResult : PyCallResult) : ProcessOutcome :=
  match callResult with
  | PyCallResult.ok => ProcessOutcome.rendered
  | PyCallResult.typeErrorUnexpectedKwarg _ => ProcessOutcome.flashRedirect

/-! Embedding of the download handler (app.py lines 168-178). -/

/-- Response of the download handler. -/
inductive DownloadResult where
  | sendFile (name : List Char)
  | flashRedirectIndex
deriving DecidableEq

/-- download (app.py lines 168-178).  The names of the files currently
present under the output directory are passed as a list; the handler
reconstructs the expected file name and serves it only when present. -/
def download (existingFiles : List (List Char)) (fileId : List Char)
    (formatParam : Option (List Char)) : DownloadResult :=
  let formatType := formatParam.getD ("txt".toList)
  let filename := fileId ++ '.' :: formatType
  if filename ∈ existingFiles then DownloadResult.sendFile filename
  else DownloadResult.flashRedirectIndex

/-! Embedding of src/utils/cleanup.py. -/

/-- A directory entry as seen by one sweep pass: its name, whether it is a
regular file, its modification time, and whether the remove call on it
raises (for example from a permission error). -/
structure DirEntry where
  name : List Char
  isFile : Bool
  mtime : Int
  removeFails : Bool
deriving DecidableEq

/-- The per-entry loop of cleanup_old_files (cleanup.py lines 11-20):
an old regular file is removed unless the remove call raises, in which
case the error is logged and the loop continues with the rest. -/
def sweepPass (now maxAgeSeconds : Int) : List DirEntry → List DirEntry
  | [] => []
  | e :: rest =>
    if e.isFile && decide (maxAgeSeconds < now - e.mtime) then
      if e.removeFails then e :: sweepPass now maxAgeSeconds rest
      else sweepPass now maxAgeSeconds rest
    else e :: sweepPass now maxAgeSeconds rest

/-- cleanup_old_files (cleanup.py lines 5-22), returning the directory
contents after the pass. -/
def cleanup_old_files (now : Int) (maxAgeHours : Int) (entries : List DirEntry) : List DirEntry :=
  sweepPass now (maxAgeHours * 3600) entries

/-! Embedding of src/utils/chatbot.py (class DocumentChatbot).  The
instance fields source_document and qa_pipeline are passed as parameters;
the Q&A pipeline produces either a raised exception, a malformed result,
or a score-and-answer dictionary.  The floating-point score is modelled
as a rational number. -/

/-- Result of one Q&A pipeline call (chatbot.py line 80). -/
inductive QAOutcome where
  | raises
  | malformed
  | answer (score : ℚ) (text : List Char)

/-- A Q&A backend: question and context to an outcome. -/
def QABackend : Type :=
  List Char → List Char → QAOutcome

/-- Two-decimal percent rendering of the confidence score.  The source
formats a float with the percent format specifier; this renders the same
shape over the rational model. -/
def formatPercent2 (q : ℚ) : List Char :=
  let n := (round (q * 10000) : Int).natAbs
  natToChars (n / 100) ++ '.' ::
    ((if n % 100 < 10 then '0' :: natToChars (n % 100) else natToChars (n % 100)) ++ ['%'])

/-- table_keywords (chatbot.py line 100). -/
def table_keywords : List (List Char) :=
  ["table".toList, "chart".toList, "organize".toList, "tabulate".toList,
   "columns".toList, "rows".toList]

/-- summary_keywords (chatbot.py line 105). -/
def summary_keywords : List (List Char) :=
  ["summarize".toList, "summary".toList, "brief".toList, "overview".toList,
   "main points".toList]

/-- list_keywords (chatbot.py line 110). -/
def list_keywords : List (List Char) :=
  ["list".toList, "bullet points".toList, "enumerate".toList, "items".toList,
   "steps".toList]

/-- DocumentChatbot._is_table_request (chatbot.py lines 98-101). -/
def is_table_request (question : List Char) : Bool :=
  containsAny table_keywords (pyLower question)

/-- DocumentChatbot._is_summary_request (chatbot.py lines 103-106). -/
def is_summary_request (question : List Char) : Bool :=
  containsAny summary_keywords (pyLower question)

/-- DocumentChatbot._is_list_request (chatbot.py lines 108-111). -/
def is_list_request (question : List Char) : Bool :=
  containsAny list_keywords (pyLower question)

/-- The linking words used to pick table data points (chatbot.py line 121). -/
def linkingWords : List (List Char) :=
  ["is".toList, "are".toList, "has".toList, "have".toList, "contains".toList]

/-- DocumentChatbot._create_table_from_text (chatbot.py lines 113-136). -/
def create_table_from_text (doc _request : List Char) : List Char :=
  let sentences := pySplitChar '.' doc
  let data_points := (sentences.map pyStrip).filter
    (fun s => 20 < s.length && containsAny linkingWords (pyLower s))
  if data_points.isEmpty then
    "I couldn\x27t find enough structured data to create a meaningful table from the source document.".toList
  else
    let header := "| **Topic** | **Information** |\n|-----------|----------------|\n".toList
    let rows := (data_points.take 10).enum.map (fun p =>
      let info := if 100 < p.2.length then p.2.take 100 ++ "...".toList else p.2
      "| Point ".toList ++ natToChars (p.1 + 1) ++ " | ".toList ++ info ++ " |\n".toList)
    "**Generated Table:**\n\n".toList ++ (header ++ rows.flatten) ++
      "\n\n*Table created from available information in the source document.*".toList

/-- DocumentChatbot._create_custom_summary (chatbot.py lines 138-159). -/
def create_custom_summary (doc _request : List Char) : List Char :=
  let sentences := pySplitChar '.' doc
  let key_sentences := (sentences.map pyStrip).filter
    (fun s => 30 ≤ s.length && s.length ≤ 200)
  if key_sentences.length < 3 then
    "The document is too short for a meaningful summary.".toList
  else
    "**Custom Summary:**\n\n".toList ++
      ("• ".toList ++ key_sentences.getD 0 [] ++ ['\n']) ++
      ("• ".toList ++ key_sentences.getD (key_sentences.length / 2) [] ++ ['\n']) ++
      ("• ".toList ++ key_sentences.getD (key_sentences.length - 1) [] ++ "\n\n".toList) ++
      "*Summary generated based on your request.*".toList

/-- DocumentChatbot._create_list_from_text (chatbot.py lines 161-179). -/
def create_list_from_text (doc _request : List Char) : List Char :=
  let sentences := pySplitChar '.' doc
  let items := (sentences.map pyStrip).filter
    (fun s => 20 ≤ s.length && s.length ≤ 150)
  if items.isEmpty then
    "I couldn\x27t extract meaningful list items from the source document.".toList
  else
    "**Generated List:**\n\n".toList ++
      ((items.take 8).enum.map (fun p =>
        natToChars (p.1 + 1) ++ ". ".toList ++ p.2 ++ ['\n'])).flatten ++
      "\n*List created from source document content.*".toList

/-- Question words of the first fallback branch (chatbot.py line 186). -/
def whatWords : List (List Char) :=
  ["what".toList, "explain".toList, "describe".toList]

/-- Question words of the statistics fallback branch (chatbot.py line 201). -/
def countWords : List (List Char) :=
  ["how many".toList, "count".toList]

/-- DocumentChatbot._fallback_answer (chatbot.py lines 181-207). -/
def fallback_answer (doc question : List Char) : List Char :=
  let question_lower := pyLower question
  if containsAny whatWords question_lower then
    let sentences := pySplitChar '.' doc
    let question_words := pySplitWs question_lower
    let relevant := (sentences.filter (fun s =>
      (question_words.filter (fun w => 3 < w.length)).any
        (fun w => pyContains w (pyLower s)))).map pyStrip
    match relevant with
    | [] => "I couldn\x27t find specific information about that in the source document.".toList
    | r :: _ => "**Based on the document:** ".toList ++ r.take 200 ++ "...".toList
  else if containsAny countWords question_lower then
    "**Document Statistics:**\n• Sentences: ".toList ++
      natToChars (pySplitChar '.' doc).length ++
      "\n• Words: ".toList ++ natToChars (pySplitWs doc).length ++
      "\n• Characters: ".toList ++ natToChars doc.length
  else
    "I\x27m here to help you with questions about the source document. Try asking about specific topics mentioned in the text.".toList

/-- DocumentChatbot._answer_direct_question (chatbot.py lines 71-96).
A missing pipeline, a raised exception, a malformed result, and a score of
at most 0.3 all fall back to the keyword heuristic. -/
def answer_direct_question (qa : Option QABackend) (doc question : List Char) : List Char :=
  match qa with
  | none => fallback_answer doc question
  | some p =>
    let context := if 2000 < doc.length then doc.take 2000 else doc
    match p question context with
    | QAOutcome.raises => fallback_answer doc question
    | QAOutcome.malformed => fallback_answer doc question
    | QAOutcome.answer score ans =>
      if (3 : ℚ) / 10 < score then
        "**Answer:** ".toList ++ ans ++ "\n\n*Confidence: ".toList ++
          formatPercent2 score ++ ['*']
      else fallback_answer doc question

/-- DocumentChatbot.answer_question (chatbot.py lines 56-69). -/
def answer_question (qa : Option QABackend) (doc question : List Char) : List Char :=
  if doc.isEmpty then
    "No source document available. Please provide a document first.".toList
  else if is_table_request question then create_table_from_text doc question
  else if is_summary_request question then create_custom_summary doc question
  else if is_list_request question then create_list_from_text doc question
  else answer_direct_question qa doc question

end AutoNote

namespace AutoNote

/-! Helper lemmas. -/

theorem pyStrip_eq_nil_of_all_ws (s : List Char) (h : ∀ c ∈ s, c.isWhitespace) :
    pyStrip s = [] := by
  unfold pyStrip
  rw [List.dropWhile_eq_nil_iff.mpr h]
  simp

theorem upload_extensions_stripped :
    UPLOAD_EXTENSIONS.map lstripDot = ["txt".toList, "pdf".toList, "docx".toList] := by
  decide

theorem sweepPass_eq_filter (now m : Int) (l : List DirEntry) :
    sweepPass now m l =
      l.filter (fun e => !(e.isFile && decide (m < now - e.mtime) && !e.removeFails)) := by
  induction l with
  | nil => rfl
  | cons e rest ih =>
    simp only [sweepPass, List.filter_cons]
    cases hf : e.isFile <;> cases hr : e.removeFails <;>
      cases ha : decide (m < now - e.mtime) <;> simp [hf, hr, ha, ih]

/-! Theorems for the claims. -/

/-- C4: generate_notes applied to the empty string, and more generally to
any all-whitespace input, returns the fixed no-content indicator string,
for every backend configuration, and never raises (it is a total function
into strings). -/
theorem C4_generate_notes_blank_input (useFallback : Bool) (backend : Option SummBackend)
    (text : List Char) (maxLength minLength : Nat)
    (h : ∀ c ∈ text, c.isWhitespace) :
    generate_notes useFallback backend text maxLength minLength =
      "No content provided for summarization.".toList := by
  unfold generate_notes
  rw [pyStrip_eq_nil_of_all_ws text h]
  simp

/-- C4 witness: the all-whitespace hypothesis discharged on a concrete
two-space input. -/
theorem C4_generate_notes_blank_input_witness :
    generate_notes false none ("  ".toList) 200 50 =
      "No content provided for summarization.".toList :=
  C4_generate_notes_blank_input false none ("  ".toList) 200 50 (by decide)

/-- C10: with an empty current document, answer_question returns the fixed
no-document message for every question, without consulting the Q&A backend
(the result is the same for every backend value) and without raising. -/
theorem C10_answer_question_no_document (qa : Option QABackend) (question : List Char) :
    answer_question qa [] question =
      "No source document available. Please provide a document first.".toList ∧
    ∀ qa2 : Option QABackend, answer_question qa [] question = answer_question qa2 [] question := by
  exact ⟨rfl, fun _ => rfl⟩

/-- C7: when the reconstructed export file name is absent from the output
directory, the download handler answers with a flash redirect to the index
page for every format value, never a server error. -/
theorem C7_download_missing_file_redirects (existingFiles : List (List Char))
    (fileId : List Char) (formatParam : Option (List Char))
    (h : fileId ++ '.' :: formatParam.getD ("txt".toList) ∉ existingFiles) :
    download existingFiles fileId formatParam = DownloadResult.flashRedirectIndex := by
  simp only [download]
  rw [if_neg h]

/-- C7 witness: a never-generated identifier against an empty output
directory, with an explicit format value. -/
theorem C7_download_missing_file_redirects_witness :
    download [] ("abc123".toList) (some ("pdf".toList)) = DownloadResult.flashRedirectIndex :=
  C7_download_missing_file_redirects [] ("abc123".toList) (some ("pdf".toList)) (by decide)

/-- C1: the process handler passes note_style to
utils.summarizer.generate_notes, whose parameters are only text,
max_length and min_length; for every offered style the call raises
TypeError on the unexpected keyword argument, and the handler turns this
into a flash-error redirect.  The claim that the call succeeds for every
style is therefore false on the code. -/
theorem C1_note_style_call_raises_type_error (style : List Char) (_h : style ∈ note_styles) :
    processGenerateNotesCall = PyCallResult.typeErrorUnexpectedKwarg ("note_style".toList) ∧
    processNotesStep processGenerateNotesCall = ProcessOutcome.flashRedirect :=
  ⟨by decide, by decide⟩

/-- C1 witness: the failure at the concrete style value structured. -/
theorem C1_note_style_call_raises_type_error_witness :
    processNotesStep processGenerateNotesCall = ProcessOutcome.flashRedirect :=
  (C1_note_style_call_raises_type_error ("structured".toList) (by decide)).2

/-- C2 counterexample: the claim admits the png extension, but
allowed_file rejects it and the process handler answers with a flash-error
redirect. -/
theorem C2_counterexample_png_rejected :
    allowed_file ("image.png".toList) = false ∧
    processFileCheck true ("image.png".toList) = FileCheck.rejectedFlashRedirect := by
  decide

/-- C2 (amended): allowed_file accepts exactly the filenames containing a
dot whose lowercased final extension is txt, pdf or docx, and a present
upload with a non-empty filename failing this test is answered with a
flash-error redirect. -/
theorem C2_upload_extension_validation (filename : List Char) :
    (allowed_file filename = true ↔
      '.' ∈ filename ∧
        pyLower (afterLastDot filename) ∈ ["txt".toList, "pdf".toList, "docx".toList]) ∧
    (filename ≠ [] → allowed_file filename = false →
      processFileCheck true filename = FileCheck.rejectedFlashRedirect) := by
  constructor
  · simp [allowed_file, upload_extensions_stripped]
  · intro h1 h2
    cases filename with
    | nil => exact absurd rfl h1
    | cons a l => simp [processFileCheck, h2]

/-- C2 witness: the amended statement applied to a concrete rejected
filename with a disallowed extension. -/
theorem C2_upload_extension_validation_witness :
    processFileCheck true ("notes.exe".toList) = FileCheck.rejectedFlashRedirect :=
  (C2_upload_extension_validation ("notes.exe".toList)).2 (by decide) (by decide)

/-- C6: in one cleanup pass, every regular file strictly older than the
threshold whose remove call succeeds is gone afterwards, every entry not
older than the threshold survives, and a failing remove on one old file is
contained: the rest of the sweep proceeds exactly as it would on the
surrounding entries. -/
theorem C6_cleanup_sweep_pass (now maxAgeHours : Int) (entries : List DirEntry) :
    (∀ e ∈ entries, e.isFile = true → maxAgeHours * 3600 < now - e.mtime →
      e.removeFails = false → e ∉ cleanup_old_files now maxAgeHours entries) ∧
    (∀ e ∈ entries, ¬(maxAgeHours * 3600 < now - e.mtime) →
      e ∈ cleanup_old_files now maxAgeHours entries) ∧
    (∀ pre post : List DirEntry, ∀ bad : DirEntry,
      bad.isFile = true → maxAgeHours * 3600 < now - bad.mtime → bad.removeFails = true →
      cleanup_old_files now maxAgeHours (pre ++ bad :: post) =
        cleanup_old_files now maxAgeHours pre ++ bad :: cleanup_old_files now maxAgeHours post) := by
  refine ⟨?_, ?_, ?_⟩
  · intro e hmem h1 h2 h3 hcontra
    rw [cleanup_old_files, sweepPass_eq_filter, List.mem_filter] at hcontra
    simp [h1, h2, h3] at hcontra
  · intro e hmem h2
    rw [cleanup_old_files, sweepPass_eq_filter, List.mem_filter]
    exact ⟨hmem, by simp [h2]⟩
  · intro pre post bad h1 h2 h3
    simp only [cleanup_old_files, sweepPass_eq_filter, List.filter_append, List.filter_cons]
    simp [h1, h2, h3]

/-- C6 witness: with a one-hour threshold at time 7200, a file of
modification time 0 is removed and a file of modification time 7000
survives the same pass. -/
theorem C6_cleanup_sweep_pass_witness :
    (⟨"old.txt".toList, true, 0, false⟩ : DirEntry) ∉
      cleanup_old_files 7200 1
        [⟨"old.txt".toList, true, 0, false⟩, ⟨"new.txt".toList, true, 7000, false⟩] ∧
    (⟨"new.txt".toList, true, 7000, false⟩ : DirEntry) ∈
      cleanup_old_files 7200 1
        [⟨"old.txt".toList, true, 0, false⟩, ⟨"new.txt".toList, true, 7000, false⟩] := by
  constructor
  · exact (C6_cleanup_sweep_pass 7200 1 _).1 _ (by decide) rfl (by decide) rfl
  · exact (C6_cleanup_sweep_pass 7200 1 _).2.1 _ (by decide) (by decide)

end AutoNote

namespace AutoNote

/-! Lemmas about Python argument-free split and space-join, for the
chunking claim. -/

theorem pySplitWsAux_good (cs : List Char) :
    ∀ cur : List Char, (∀ c ∈ cur, c.isWhitespace = false) →
      ∀ w ∈ pySplitWsAux cs cur, w ≠ [] ∧ ∀ c ∈ w, c.isWhitespace = false := by
  induction cs with
  | nil =>
    intro cur hcur w hw
    cases cur with
    | nil => simp [pySplitWsAux] at hw
    | cons a t =>
      simp only [pySplitWsAux, List.isEmpty_cons, ite_false, Bool.false_eq_true,
        List.mem_singleton] at hw
      subst hw
      refine ⟨by simp, ?_⟩
      intro c hc
      exact hcur c (List.mem_reverse.mp hc)
  | cons a rest ih =>
    intro cur hcur w hw
    by_cases ha : a.isWhitespace
    · simp only [pySplitWsAux, ha, if_true] at hw
      cases cur with
      | nil =>
        simp only [List.isEmpty_nil, if_true] at hw
        exact ih [] (by simp) w hw
      | cons b t =>
        simp only [List.isEmpty_cons, ite_false, Bool.false_eq_true, List.mem_cons] at hw
        rcases hw with hw | hw
        · subst hw
          refine ⟨by simp, ?_⟩
          intro c hc
          exact hcur c (List.mem_reverse.mp hc)
        · exact ih [] (by simp) w hw
    · rw [Bool.not_eq_true] at ha
      simp only [pySplitWsAux, ha, Bool.false_eq_true, if_false] at hw
      refine ih (a :: cur) ?_ w hw
      intro c hc
      rcases List.mem_cons.mp hc with hc | hc
      · subst hc; exact ha
      · exact hcur c hc

theorem pySplitWsAux_append_word (w : List Char) (hw : ∀ c ∈ w, c.isWhitespace = false)
    (cs : List Char) :
    ∀ cur : List Char, pySplitWsAux (w ++ cs) cur = pySplitWsAux cs (w.reverse ++ cur) := by
  induction w with
  | nil => intro cur; simp
  | cons a t ih =>
    intro cur
    have ha : a.isWhitespace = false := hw a (by simp)
    simp only [List.cons_append, pySplitWsAux, ha, Bool.false_eq_true, if_false,
      List.append_eq]
    rw [ih (fun c hc => hw c (by simp [hc])) (a :: cur)]
    simp

theorem pySplitWsAux_space_cons (cs : List Char) (b : Char) (t : List Char) :
    pySplitWsAux (' ' :: cs) (b :: t) = (b :: t).reverse :: pySplitWsAux cs [] := by
  have hsp : (' ' : Char).isWhitespace = true := by decide
  simp [pySplitWsAux, hsp]

theorem pySplitWs_joinSep_words (ws : List (List Char))
    (h : ∀ w ∈ ws, w ≠ [] ∧ ∀ c ∈ w, c.isWhitespace = false) (hne : ws ≠ []) :
    pySplitWs (joinSep [' '] ws) = ws := by
  induction ws with
  | nil => exact absurd rfl hne
  | cons w tail ih =>
    obtain ⟨hwne, hwgood⟩ := h w (by simp)
    cases tail with
    | nil =>
      show pySplitWsAux (joinSep [' '] [w]) [] = [w]
      have hj : joinSep [' '] [w] = w ++ [] := by simp [joinSep]
      rw [hj, pySplitWsAux_append_word w hwgood [] []]
      cases hrev : w.reverse with
      | nil => exact absurd (by simpa using congrArg List.reverse hrev) hwne
      | cons b t => simp [pySplitWsAux, ← hrev, hwne]
    | cons w2 tail2 =>
      have hj : joinSep [' '] (w :: w2 :: tail2) = w ++ (' ' :: joinSep [' '] (w2 :: tail2)) := by
        simp [joinSep]
      show pySplitWsAux (joinSep [' '] (w :: w2 :: tail2)) [] = w :: w2 :: tail2
      rw [hj, pySplitWsAux_append_word w hwgood _ []]
      cases hrev : w.reverse with
      | nil => exact absurd (by simpa using congrArg List.reverse hrev) hwne
      | cons b t =>
        rw [List.append_nil, pySplitWsAux_space_cons, ← hrev]
        simp only [List.reverse_reverse]
        have hx := ih (fun x hx => h x (by simp [hx])) (by simp)
        rw [pySplitWs] at hx
        rw [hx]

/-! Lemmas about the chunking loop, for the chunking claim. -/

theorem joinSep_cons_ne_nil (sep : List Char) (w : List Char) (ws : List (List Char))
    (hw : w ≠ []) : joinSep sep (w :: ws) ≠ [] := by
  cases ws with
  | nil => exact hw
  | cons x xs => simp [joinSep, hw]

theorem chunkTextAux_flatten_words (maxC : Nat) (ws : List (List Char))
    (hws : ∀ w ∈ ws, w ≠ [] ∧ ∀ c ∈ w, c.isWhitespace = false) :
    ∀ cur : List (List Char), ∀ size : Nat,
      (∀ w ∈ cur, w ≠ [] ∧ ∀ c ∈ w, c.isWhitespace = false) →
      ((chunkTextAux maxC ws cur size).map pySplitWs).flatten = cur.reverse ++ ws := by
  induction ws with
  | nil =>
    intro cur size hcur
    cases cur with
    | nil => simp [chunkTextAux]
    | cons g gs =>
      have hgrev : ∀ x ∈ (g :: gs).reverse, x ≠ [] ∧ ∀ c ∈ x, c.isWhitespace = false := by
        intro x hx
        exact hcur x (List.mem_reverse.mp hx)
      simp only [chunkTextAux, List.isEmpty_cons, ite_false, Bool.false_eq_true,
        List.map_cons, List.map_nil, List.flatten_cons, List.flatten_nil, List.append_nil]
      rw [pySplitWs_joinSep_words _ hgrev (by simp)]
  | cons w tail ih =>
    intro cur size hcur
    have hwgood := hws w (by simp)
    have htail : ∀ x ∈ tail, x ≠ [] ∧ ∀ c ∈ x, c.isWhitespace = false :=
      fun x hx => hws x (by simp [hx])
    have hcur2 : ∀ x ∈ w :: cur, x ≠ [] ∧ ∀ c ∈ x, c.isWhitespace = false := by
      intro x hx
      rcases List.mem_cons.mp hx with hx | hx
      · subst hx; exact hwgood
      · exact hcur x hx
    simp only [chunkTextAux]
    by_cases hle : maxC ≤ size + w.length + 1
    · rw [if_pos hle]
      have hgrev : ∀ x ∈ (w :: cur).reverse, x ≠ [] ∧ ∀ c ∈ x, c.isWhitespace = false := by
        intro x hx
        exact hcur2 x (List.mem_reverse.mp hx)
      simp only [List.map_cons, List.flatten_cons]
      rw [pySplitWs_joinSep_words _ hgrev (by simp), ih htail [] 0 (by simp)]
      simp
    · rw [if_neg hle, ih htail (w :: cur) (size + w.length + 1) hcur2]
      simp

theorem chunkTextAux_chunks_ne_nil (maxC : Nat) (ws : List (List Char))
    (hws : ∀ w ∈ ws, w ≠ []) :
    ∀ cur : List (List Char), ∀ size : Nat, (∀ w ∈ cur, w ≠ []) →
      ∀ chunk ∈ chunkTextAux maxC ws cur size, chunk ≠ [] := by
  induction ws with
  | nil =>
    intro cur size hcur chunk hchunk
    cases cur with
    | nil => simp [chunkTextAux] at hchunk
    | cons g gs =>
      simp only [chunkTextAux, List.isEmpty_cons, ite_false, Bool.false_eq_true,
        List.mem_singleton] at hchunk
      subst hchunk
      cases hrev : (g :: gs).reverse with
      | nil => simp at hrev
      | cons y ys =>
        refine joinSep_cons_ne_nil _ y ys ?_
        refine hcur y ?_
        have hy : y ∈ (g :: gs).reverse := by rw [hrev]; simp
        exact List.mem_reverse.mp hy
  | cons w tail ih =>
    intro cur size hcur chunk hchunk
    have hwne := hws w (by simp)
    have htail : ∀ x ∈ tail, x ≠ [] := fun x hx => hws x (by simp [hx])
    have hcur2 : ∀ x ∈ w :: cur, x ≠ [] := by
      intro x hx
      rcases List.mem_cons.mp hx with hx | hx
      · subst hx; exact hwne
      · exact hcur x hx
    simp only [chunkTextAux] at hchunk
    by_cases hle : maxC ≤ size + w.length + 1
    · rw [if_pos hle] at hchunk
      rcases List.mem_cons.mp hchunk with hchunk | hchunk
      · subst hchunk
        cases hrev : (w :: cur).reverse with
        | nil => simp at hrev
        | cons y ys =>
          refine joinSep_cons_ne_nil _ y ys ?_
          refine hcur2 y ?_
          have hy : y ∈ (w :: cur).reverse := by rw [hrev]; simp
          exact List.mem_reverse.mp hy
      · exact ih htail [] 0 (by simp) chunk hchunk
    · rw [if_neg hle] at hchunk
      exact ih htail (w :: cur) (size + w.length + 1) hcur2 chunk hchunk

/-- C9: for every text and positive chunk-size bound, the in-order
concatenation of the words of the chunks returned by chunk_text is exactly
the word sequence of the text, and every returned chunk is a non-empty
string. -/
theorem C9_chunk_text_preserves_words (text : List Char) (maxChunkSize : Nat)
    (_hpos : 0 < maxChunkSize) :
    ((chunk_text text maxChunkSize).map pySplitWs).flatten = pySplitWs text ∧
    ∀ chunk ∈ chunk_text text maxChunkSize, chunk ≠ [] := by
  have hgood := pySplitWsAux_good text [] (by simp)
  constructor
  · simpa using chunkTextAux_flatten_words maxChunkSize (pySplitWs text) hgood [] 0 (by simp)
  · exact chunkTextAux_chunks_ne_nil maxChunkSize (pySplitWs text)
      (fun w hw => (hgood w hw).1) [] 0 (by simp)

/-- C9 witness: the positivity hypothesis discharged at a concrete text
and bound. -/
theorem C9_chunk_text_preserves_words_witness :
    ((chunk_text ("one two three".toList) 5).map pySplitWs).flatten =
        pySplitWs ("one two three".toList) ∧
    ∀ chunk ∈ chunk_text ("one two three".toList) 5, chunk ≠ [] :=
  C9_chunk_text_preserves_words ("one two three".toList) 5 (by decide)

end AutoNote

namespace AutoNote

/-! Lemmas about sentence splitting and stripping, for the fallback
summarizer claim. -/

theorem mem_reSplitAux_subset (cs : List Char) :
    ∀ (cur : List Char) (skipping : Bool), ∀ s ∈ reSplitAux cs cur skipping,
      ∀ c ∈ s, c ∈ cs ∨ c ∈ cur := by
  induction cs with
  | nil =>
    intro cur skipping s hs c hc
    simp only [reSplitAux, List.mem_singleton] at hs
    subst hs
    exact Or.inr (List.mem_reverse.mp hc)
  | cons a rest ih =>
    intro cur skipping s hs c hc
    by_cases ha : isSentBreak a = true
    · cases skipping with
      | true =>
        simp only [reSplitAux, ha, if_true] at hs
        rcases ih cur true s hs c hc with h | h
        · exact Or.inl (List.mem_cons_of_mem a h)
        · exact Or.inr h
      | false =>
        simp only [reSplitAux, ha, if_true, Bool.false_eq_true, if_false,
          List.mem_cons] at hs
        rcases hs with hs | hs
        · subst hs
          exact Or.inr (List.mem_reverse.mp hc)
        · rcases ih [] true s hs c hc with h | h
          · exact Or.inl (List.mem_cons_of_mem a h)
          · simp at h
    · rw [Bool.not_eq_true] at ha
      simp only [reSplitAux, ha, Bool.false_eq_true, if_false] at hs
      rcases ih (a :: cur) false s hs c hc with h | h
      · exact Or.inl (List.mem_cons_of_mem a h)
      · rcases List.mem_cons.mp h with h | h
        · subst h
          exact Or.inl (List.mem_cons_self _ _)
        · exact Or.inr h

theorem mem_pyStrip_subset (s : List Char) : ∀ c ∈ pyStrip s, c ∈ s := by
  intro c hc
  unfold pyStrip at hc
  have h1 := List.mem_reverse.mp hc
  have h2 := List.dropWhile_subset _ h1
  have h3 := List.mem_reverse.mp h2
  exact List.dropWhile_subset _ h3

theorem all_ws_of_pyStrip_eq_nil (s : List Char) (h : pyStrip s = []) :
    ∀ c ∈ s, c.isWhitespace := by
  intro c hc
  unfold pyStrip at h
  rw [List.reverse_eq_nil_iff, List.dropWhile_eq_nil_iff] at h
  rw [← List.takeWhile_append_dropWhile (p := Char.isWhitespace) (l := s)] at hc
  rcases List.mem_append.mp hc with h1 | h1
  · exact List.mem_takeWhile_imp h1
  · exact h c (List.mem_reverse.mpr h1)

theorem splitCharAux_no_sep (sep : Char) (cs : List Char) (hcs : sep ∉ cs) :
    ∀ cur : List Char, splitCharAux sep cs cur = [cur.reverse ++ cs] := by
  induction cs with
  | nil => intro cur; simp [splitCharAux]
  | cons a rest ih =>
    intro cur
    have ha : ¬(a = sep) := fun hh => hcs (by simp [hh])
    simp only [splitCharAux, ha, if_false]
    rw [ih (fun hh => hcs (List.mem_cons_of_mem a hh)) (a :: cur)]
    simp

theorem splitCharAux_through_sep (sep : Char) (x : List Char) (hx : sep ∉ x) (rest : List Char) :
    ∀ cur : List Char,
      splitCharAux sep (x ++ sep :: rest) cur = (cur.reverse ++ x) :: splitCharAux sep rest [] := by
  induction x with
  | nil => intro cur; simp [splitCharAux]
  | cons a t ih =>
    intro cur
    have ha : ¬(a = sep) := fun hh => hx (by simp [hh])
    simp only [List.cons_append, splitCharAux, ha, if_false, List.append_eq]
    rw [ih (fun hh => hx (List.mem_cons_of_mem a hh)) (a :: cur)]
    simp

theorem pySplitChar_joinSep (sep : Char) (items : List (List Char)) (hne : items ≠ [])
    (h : ∀ s ∈ items, sep ∉ s) :
    pySplitChar sep (joinSep [sep] items) = items := by
  induction items with
  | nil => exact absurd rfl hne
  | cons x tail ih =>
    cases tail with
    | nil =>
      show splitCharAux sep (joinSep [sep] [x]) [] = [x]
      have hj : joinSep [sep] [x] = x := rfl
      rw [hj, splitCharAux_no_sep sep x (h x (by simp)) []]
      simp
    | cons y ys =>
      have hj : joinSep [sep] (x :: y :: ys) = x ++ sep :: joinSep [sep] (y :: ys) := by
        simp [joinSep]
      show splitCharAux sep (joinSep [sep] (x :: y :: ys)) [] = x :: y :: ys
      rw [hj, splitCharAux_through_sep sep x (h x (by simp)) _ []]
      simp only [List.reverse_nil, List.nil_append]
      have ht := ih (by simp) (fun s hs => h s (by simp [hs]))
      rw [pySplitChar] at ht
      rw [ht]

theorem joinSep_cons_factor (sep : List Char) (x : List Char) (xs : List (List Char)) :
    ∃ z : List Char, joinSep sep (x :: xs) = x ++ z := by
  cases xs with
  | nil => exact ⟨[], by simp [joinSep]⟩
  | cons y ys => exact ⟨sep ++ joinSep sep (y :: ys), by simp [joinSep]⟩

theorem simple_text_summarizer_factor (text first : List Char) (rest : List (List Char))
    (hlist : ((reSplit text).map pyStrip).filter (fun s => 20 < s.length) = first :: rest) :
    ∃ tail : List (List Char),
      simple_text_summarizer text =
        joinSep ['\n'] (("• ".toList ++ pyStrip first ++ ['.']) :: tail) ∧
      ∀ item ∈ ("• ".toList ++ pyStrip first ++ ['.']) :: tail,
        ∃ s, s ∈ first :: rest ∧ item = "• ".toList ++ pyStrip s ++ ['.'] := by
  simp only [simple_text_summarizer, hlist, List.map_cons]
  refine ⟨_, rfl, ?_⟩
  intro item hitem
  rcases List.mem_cons.mp hitem with hitem | hitem
  · exact ⟨first, List.mem_cons_self first rest, hitem⟩
  · rcases List.mem_map.mp hitem with ⟨s, hs, rfl⟩
    refine ⟨s, ?_, rfl⟩
    rcases List.mem_append.mp hs with hs | hs
    · have h1 := List.take_subset 4 _ hs
      have h2 := (List.mem_filter.mp h1).1
      exact List.mem_cons_of_mem first h2
    · split at hs
      · have h1 := List.take_subset 3 _ hs
        exact List.drop_subset _ _ h1
      · simp at hs

end AutoNote

namespace AutoNote

/-- C3 counterexample: the input hi is non-empty, yet the fallback
summarizer returns the empty string for it (no sentence of stripped
length over 20 exists), refuting the claim for every non-empty input. -/
theorem C3_counterexample_short_input :
    ("hi".toList : List Char) ≠ [] ∧ simple_text_summarizer ("hi".toList) = [] := by
  decide

/-- C3 (amended): for input text containing at least one sentence segment
of stripped length over 20, the fallback summarizer returns a non-empty
string beginning with a bullet marker; when the input has no newline
character, every output line begins with the bullet marker; and with the
backend unavailable (fallback flag set or missing handle), generate_notes
returns exactly this fallback output. -/
theorem C3_fallback_bulleted_output (text : List Char)
    (h : ((reSplit text).map pyStrip).filter (fun s => 20 < s.length) ≠ []) :
    simple_text_summarizer text ≠ [] ∧
    "• ".toList <+: simple_text_summarizer text ∧
    ((∀ c ∈ text, ¬(c = '\n')) →
      ∀ line ∈ pySplitChar '\n' (simple_text_summarizer text), "• ".toList <+: line) ∧
    (∀ (useFallback : Bool) (backend : Option SummBackend) (maxLength minLength : Nat),
      useFallback = true ∨ backend = none →
      generate_notes useFallback backend text maxLength minLength =
        simple_text_summarizer text) := by
  cases hlist : ((reSplit text).map pyStrip).filter (fun s => 20 < s.length) with
  | nil => exact absurd hlist h
  | cons first rest =>
    obtain ⟨tail, heq, hitems⟩ := simple_text_summarizer_factor text first rest hlist
    have hmem_text : ∀ s, s ∈ first :: rest → ∀ c ∈ pyStrip s, c ∈ text := by
      intro s hs c hc
      rw [← hlist] at hs
      have h1 := (List.mem_filter.mp hs).1
      rcases List.mem_map.mp h1 with ⟨p, hp, hpe⟩
      have h2 := mem_pyStrip_subset s c hc
      rw [← hpe] at h2
      have h3 := mem_pyStrip_subset p c h2
      rcases mem_reSplitAux_subset text [] false p hp c h3 with h4 | h4
      · exact h4
      · simp at h4
    refine ⟨?_, ?_, ?_, ?_⟩
    · rw [heq]
      exact joinSep_cons_ne_nil _ _ tail (by simp)
    · rw [heq]
      obtain ⟨z, hz⟩ := joinSep_cons_factor ['\n'] ("• ".toList ++ pyStrip first ++ ['.']) tail
      rw [hz]
      exact ⟨(pyStrip first ++ ['.']) ++ z, by simp⟩
    · intro hnl line hline
      have hnone : ∀ item ∈ ("• ".toList ++ pyStrip first ++ ['.']) :: tail, '\n' ∉ item := by
        intro item hitem hcontra
        obtain ⟨s, hs, hse⟩ := hitems item hitem
        rw [hse] at hcontra
        rcases List.mem_append.mp hcontra with h1 | h1
        · rcases List.mem_append.mp h1 with h2 | h2
          · simp at h2
          · exact hnl '\n' (hmem_text s hs '\n' h2) rfl
        · simp at h1
      rw [heq, pySplitChar_joinSep '\n' _ (by simp) hnone] at hline
      obtain ⟨s, _, hse⟩ := hitems line hline
      rw [hse]
      exact ⟨pyStrip s ++ ['.'], by simp⟩
    · intro useFallback backend maxLength minLength hcase
      have hstrip : ¬(pyStrip text = []) := by
        intro hps
        have hws := all_ws_of_pyStrip_eq_nil text hps
        have hf : first ∈ ((reSplit text).map pyStrip).filter (fun s => 20 < s.length) := by
          rw [hlist]
          exact List.mem_cons_self first rest
        have h1 := List.mem_filter.mp hf
        rcases List.mem_map.mp h1.1 with ⟨p, hp, hpe⟩
        have hpws : ∀ c ∈ p, c.isWhitespace := by
          intro c hc
          rcases mem_reSplitAux_subset text [] false p hp c hc with h4 | h4
          · exact hws c h4
          · simp at h4
        have hpnil := pyStrip_eq_nil_of_all_ws p hpws
        have h2 := h1.2
        rw [← hpe, hpnil] at h2
        simp at h2
      have hie : (pyStrip text).isEmpty = false := by
        cases hpt : pyStrip text with
        | nil => exact absurd hpt hstrip
        | cons a l => rfl
      rcases hcase with huf | hb
      · subst huf
        simp [generate_notes, hie]
      · subst hb
        simp [generate_notes, hie]

/-- C3 witness: the sentence hypothesis discharged on a concrete input
with one long sentence. -/
theorem C3_fallback_bulleted_output_witness :
    simple_text_summarizer ("This is a sentence that is long enough to count.".toList) ≠ [] ∧
    "• ".toList <+:
      simple_text_summarizer ("This is a sentence that is long enough to count.".toList) ∧
    ((∀ c ∈ ("This is a sentence that is long enough to count.".toList : List Char), ¬(c = '\n')) →
      ∀ line ∈ pySplitChar '\n'
          (simple_text_summarizer ("This is a sentence that is long enough to count.".toList)),
        "• ".toList <+: line) ∧
    (∀ (useFallback : Bool) (backend : Option SummBackend) (maxLength minLength : Nat),
      useFallback = true ∨ backend = none →
      generate_notes useFallback backend ("This is a sentence that is long enough to count.".toList)
          maxLength minLength =
        simple_text_summarizer ("This is a sentence that is long enough to count.".toList)) :=
  C3_fallback_bulleted_output ("This is a sentence that is long enough to count.".toList) (by decide)

end AutoNote

namespace AutoNote

/-- C5: a raised backend exception inside the try-block of generate_notes
is caught and answered with the deterministic heuristic fallback summary;
and a Q&A pipeline call that raises, returns a malformed result, or
returns a score of at most 0.3 makes the direct-question path return the
keyword-heuristic fallback answer.  Both embeddings are total functions
into strings, so no backend failure surfaces as an error. -/
theorem C5_backend_failures_fall_back (f : SummBackend) (text : List Char)
    (maxLength minLength : Nat) (err : Unit)
    (qa : QABackend) (doc question : List Char) :
    (tryGenerateNotes f text maxLength minLength = Except.error err →
      pyStrip text ≠ [] →
      generate_notes false (some f) text maxLength minLength = simple_text_summarizer text) ∧
    ((qa question (if 2000 < doc.length then doc.take 2000 else doc) = QAOutcome.raises ∨
      qa question (if 2000 < doc.length then doc.take 2000 else doc) = QAOutcome.malformed ∨
      (∃ score ans, qa question (if 2000 < doc.length then doc.take 2000 else doc) =
          QAOutcome.answer score ans ∧ score ≤ 3 / 10)) →
      answer_direct_question (some qa) doc question = fallback_answer doc question) := by
  constructor
  · intro htry hstrip
    have hie : (pyStrip text).isEmpty = false := by
      cases hpt : pyStrip text with
      | nil => exact absurd hpt hstrip
      | cons a l => rfl
    simp [generate_notes, hie, htry]
  · intro hout
    rcases hout with h1 | h1 | ⟨score, ans, h1, h2⟩
    · simp [answer_direct_question, h1]
    · simp [answer_direct_question, h1]
    · have hsc : ¬((3 : ℚ) / 10 < score) := not_lt.mpr h2
      simp [answer_direct_question, h1, hsc]

/-- C5 witness: an always-raising summarization backend on a short
non-blank text, and an always-raising Q&A pipeline, both discharged
concretely. -/
theorem C5_backend_failures_fall_back_witness :
    generate_notes false (some (fun _ _ _ => Except.error ())) ("Some text".toList) 200 50 =
      simple_text_summarizer ("Some text".toList) ∧
    answer_direct_question (some (fun _ _ => QAOutcome.raises))
        ("The doc".toList) ("The question".toList) =
      fallback_answer ("The doc".toList) ("The question".toList) :=
  ⟨(C5_backend_failures_fall_back (fun _ _ _ => Except.error ()) ("Some text".toList) 200 50 ()
      (fun _ _ => QAOutcome.raises) ("The doc".toList) ("The question".toList)).1
      rfl (by decide),
   (C5_backend_failures_fall_back (fun _ _ _ => Except.error ()) ("Some text".toList) 200 50 ()
      (fun _ _ => QAOutcome.raises) ("The doc".toList) ("The question".toList)).2
      (Or.inl rfl)⟩

/-- C8: with a non-empty document, answer_question classifies the question
by keyword membership (a lowercased substring test against the fixed
keyword lists) and routes, in order: table request to the table builder,
else summary request to the custom summary, else list request to the list
builder, else to the direct Q&A path. -/
theorem C8_question_routing (qa : Option QABackend) (doc question : List Char)
    (hdoc : doc ≠ []) :
    (is_table_request question = true ↔
      ∃ kw ∈ table_keywords, kw <:+: pyLower question) ∧
    (is_summary_request question = true ↔
      ∃ kw ∈ summary_keywords, kw <:+: pyLower question) ∧
    (is_list_request question = true ↔
      ∃ kw ∈ list_keywords, kw <:+: pyLower question) ∧
    (is_table_request question = true →
      answer_question qa doc question = create_table_from_text doc question) ∧
    (is_table_request question = false → is_summary_request question = true →
      answer_question qa doc question = create_custom_summary doc question) ∧
    (is_table_request question = false → is_summary_request question = false →
      is_list_request question = true →
      answer_question qa doc question = create_list_from_text doc question) ∧
    (is_table_request question = false → is_summary_request question = false →
      is_list_request question = false →
      answer_question qa doc question = answer_direct_question qa doc question) := by
  have hie : doc.isEmpty = false := by
    cases doc with
    | nil => exact absurd rfl hdoc
    | cons a l => rfl
  refine ⟨?_, ?_, ?_, ?_, ?_, ?_, ?_⟩
  · simp [is_table_request, containsAny, pyContains]
  · simp [is_summary_request, containsAny, pyContains]
  · simp [is_list_request, containsAny, pyContains]
  · intro h1
    simp [answer_question, hie, h1]
  · intro h1 h2
    simp [answer_question, hie, h1, h2]
  · intro h1 h2 h3
    simp [answer_question, hie, h1, h2, h3]
  · intro h1 h2 h3
    simp [answer_question, hie, h1, h2, h3]

/-- C8 witness: a concrete chart question against a concrete document is
routed to the table builder. -/
theorem C8_question_routing_witness :
    answer_question none ("A document.".toList) ("make a chart".toList) =
      create_table_from_text ("A document.".toList) ("make a chart".toList) :=
  (C8_question_routing none ("A document.".toList) ("make a chart".toList)
      (by decide)).2.2.2.1 (by decide)

end AutoNote
